import Mathlib

set_option linter.unusedVariables false

/- Verification development for the Remove-Coupling pipe reconnection engine
   (src/script.py).  Geometry is embedded over ℚ.  Every Euclidean-distance
   comparison of the source is represented by the order-isomorphic squared
   distance (dist p q < t  ↔  distSq p q < t^2 for t ≥ 0), so the source's
   thresholds 10.0 / 5.0 / 3.0 / 2.0 / 1.0 feet appear here as 100 / 25 / 9 /
   4 / 1.  Revit `Curve.Direction` is a normalized vector; since
   normalization rescales by a positive factor, the sign of any dot product is
   unchanged when the unnormalized end-minus-start vector is used instead,
   which is what `dirVec` does.  Host-side operations that can raise
   (curve assignment, element deletion, connector linking) are modelled by
   Boolean flags in `Host`. -/

structure XYZ where
  x : ℚ
  y : ℚ
  z : ℚ
deriving DecidableEq

/-- Squared Euclidean distance, mirroring `XYZ.DistanceTo` up to the
monotone square map. -/
def distSq (p q : XYZ) : ℚ :=
  (p.x - q.x) ^ 2 + (p.y - q.y) ^ 2 + (p.z - q.z) ^ 2

structure Line where
  s : XYZ
  e : XYZ
deriving DecidableEq

/-- Squared curve length (`curve.Length` up to the monotone square map). -/
def lenSq (c : Line) : ℚ := distSq c.s c.e

/-- Unnormalized direction vector of a bound line (`curve.Direction` times a
positive scalar). -/
def dirVec (c : Line) : XYZ := ⟨c.e.x - c.s.x, c.e.y - c.s.y, c.e.z - c.s.z⟩

/-- Dot product (`XYZ.DotProduct`). -/
def dot3 (u v : XYZ) : ℚ := u.x * v.x + u.y * v.y + u.z * v.z

/-- Componentwise midpoint, as computed at script.py lines 400-404 and 510. -/
def midpointQ (p q : XYZ) : XYZ := ⟨(p.x + q.x) / 2, (p.y + q.y) / 2, (p.z + q.z) / 2⟩

/-- Endpoint of a line selected by a Boolean index: `false` is the start
(`GetEndPoint(0)`), `true` is the end (`GetEndPoint(1)`). -/
def ep (c : Line) (b : Bool) : XYZ := if b then c.e else c.s

/-- First element of minimal key among four key-payload pairs.  This is what
`distances.sort(key=lambda x: x[0]); distances[0]` computes: Python's sort is
stable, so the head of the sorted list is the first entry achieving the
minimal key.  The same selection arises from the strict-improvement scans at
script.py lines 502-506 and 550-554. -/
def pick2 {α : Type} (x y : ℚ × α) : ℚ × α :=
  if y.1 < x.1 then y else x

def argmin4 {α : Type} (a b c d : ℚ × α) : ℚ × α :=
  pick2 (pick2 (pick2 a b) c) d

/-- Reference from a connector to an external port: the identity of the
owning element (`ref.Owner.Id`). -/
structure Ref where
  ownerId : ℕ
deriving DecidableEq

/-- State of one pipe connector: `IsConnected` plus the owners of its
`AllRefs` entries. -/
structure ConnState where
  isConnected : Bool
  refs : List Ref
deriving DecidableEq

/-- A pipe: identity, location curve, the two end connectors (Revit places a
pipe's connectors at the curve endpoints, so their origins are `curve.s` and
`curve.e` and move with the geometry), and its type id. -/
structure Pipe where
  id : ℕ
  curve : Line
  connS : ConnState
  connE : ConnState
  typeId : ℕ
deriving DecidableEq

/-- Host behaviour surrounding the engine: which host operations raise, what
the union primitive reports, whether segment creation yields an element, and
the identity handed to a freshly created element. -/
structure Host where
  ttSpanThrows : Bool
  ttBackupThrows : Bool
  ttConnectToThrows : Bool
  ttDeleteThrows : Bool
  ebThrows : Bool
  unionOk : Bool
  connectThrows : Bool
  extendThrows : Bool
  segmentCreateOk : Bool
  freshId : ℕ
deriving DecidableEq

/-- The keeper of TRUE_TRIM: the longer pipe, with pipe1 preferred on ties
(script.py lines 167-178, `curve1_length >= curve2_length`). -/
def ttKeeper (pipe1 pipe2 : Pipe) : Pipe :=
  if lenSq pipe2.curve ≤ lenSq pipe1.curve then pipe1 else pipe2

/-- The donor of TRUE_TRIM: the pipe that is not the keeper. -/
def ttDonor (pipe1 pipe2 : Pipe) : Pipe :=
  if lenSq pipe2.curve ≤ lenSq pipe1.curve then pipe2 else pipe1

/-- The TRUE_TRIM distance gate value: the minimum of the four
cross-endpoint squared distances of the two input pipes, i.e. the key of
`distances[0]` after the stable sort at script.py lines 144-153. -/
def ttGateSq (pipe1 pipe2 : Pipe) : ℚ :=
  min (min (distSq pipe1.curve.s pipe2.curve.s) (distSq pipe1.curve.s pipe2.curve.e))
      (min (distSq pipe1.curve.e pipe2.curve.s) (distSq pipe1.curve.e pipe2.curve.e))

/-- The extend-direction selection of TRUE_TRIM (script.py lines 187-195):
key-payload list in source order, where each entry keyed by the distance
from a main endpoint to a donor endpoint carries the main endpoint
(`connection_point`), the OTHER donor endpoint (`extend_to_point`) and the
side flag (`true` mirrors the string "extend_from_main_end"). -/
def ttSel (mc ec : Line) : ℚ × XYZ × XYZ × Bool :=
  argmin4
    (distSq mc.s ec.s, mc.s, ec.e, false)
    (distSq mc.s ec.e, mc.s, ec.s, false)
    (distSq mc.e ec.s, mc.e, ec.e, true)
    (distSq mc.e ec.e, mc.e, ec.s, true)

/-- Candidate merged span before the direction check (script.py lines
198-205): extend from main start keeps `main_end`, extend from main end
keeps `main_start`; the other endpoint is `extend_to_point`. -/
def ttCandSpan (mc : Line) (sel : ℚ × XYZ × XYZ × Bool) : Line :=
  if sel.2.2.2 then ⟨mc.s, sel.2.2.1⟩ else ⟨sel.2.2.1, mc.e⟩

/-- Direction check of TRUE_TRIM (script.py lines 220-234): if the dot
product of the keeper's original direction with the candidate direction is
negative, the candidate span's start and end are swapped. -/
def ttOriented (mc cand : Line) : Line :=
  if dot3 (dirVec mc) (dirVec cand) < 0 then ⟨cand.e, cand.s⟩ else cand

/-- The merged span TRUE_TRIM applies to the keeper. -/
def ttFinalCurve (pipe1 pipe2 : Pipe) : Line :=
  ttOriented (ttKeeper pipe1 pipe2).curve
    (ttCandSpan (ttKeeper pipe1 pipe2).curve
      (ttSel (ttKeeper pipe1 pipe2).curve (ttDonor pipe1 pipe2).curve))

/-- The span the in-line backup applies when the merged span update raises
(script.py lines 314-319): a single-sided extension of the keeper to the
anchor `connection_point` only. -/
def ttBackupCurve (pipe1 pipe2 : Pipe) : Line :=
  if (ttSel (ttKeeper pipe1 pipe2).curve (ttDonor pipe1 pipe2).curve).2.2.2 then
    ⟨(ttKeeper pipe1 pipe2).curve.s,
     (ttSel (ttKeeper pipe1 pipe2).curve (ttDonor pipe1 pipe2).curve).2.1⟩
  else
    ⟨(ttSel (ttKeeper pipe1 pipe2).curve (ttDonor pipe1 pipe2).curve).2.1,
     (ttKeeper pipe1 pipe2).curve.e⟩

/-- Snapshot of the donor's external connections taken before deletion
(script.py lines 240-256, Step 2): for every connected donor connector, every
reference whose owner differs from the donor itself, paired with the
connector's origin. -/
def ttTransfers (donor : Pipe) : List (Ref × XYZ) :=
  (if donor.connS.isConnected then
    (donor.connS.refs.filter (fun r => r.ownerId ≠ donor.id)).map (fun r => (r, donor.curve.s))
   else []) ++
  (if donor.connE.isConnected then
    (donor.connE.refs.filter (fun r => r.ownerId ≠ donor.id)).map (fun r => (r, donor.curve.e))
   else [])

/-- One step of the connection-transfer loop (script.py lines 265-292,
Step 4): scan the keeper's two connectors in order, keep the strictly
closest currently-free one (`min_dist` starts unbounded and only a strictly
smaller distance replaces the candidate, so with both connectors free the
end connector wins exactly when it is strictly closer, and with one free
connector the free one wins), and link it when its distance to the
recorded position is below 1.0 feet (squared: 1); a raising `ConnectTo` is
caught and leaves the keeper unchanged (lines 290-292). -/
def transferOne (h : Host) (k : Pipe) (t : Ref × XYZ) : Pipe :=
  let dS := distSq k.curve.s t.2
  let dE := distSq k.curve.e t.2
  if h.ttConnectToThrows then k
  else if k.connS.isConnected then
    (if k.connE.isConnected then k
     else if dE < 1 then { k with connE := ⟨true, k.connE.refs ++ [t.1]⟩ } else k)
  else if k.connE.isConnected then
    (if dS < 1 then { k with connS := ⟨true, k.connS.refs ++ [t.1]⟩ } else k)
  else if dE < dS then
    (if dE < 1 then { k with connE := ⟨true, k.connE.refs ++ [t.1]⟩ } else k)
  else
    (if dS < 1 then { k with connS := ⟨true, k.connS.refs ++ [t.1]⟩ } else k)

/-- Result of a successful `true_trim_pipes` run. -/
structure TTOut where
  keeper : Pipe
  mergedPath : Bool
  donorDeleted : Bool
deriving DecidableEq

/-- The TRUE_TRIM strategy (script.py lines 120-364), returning `none` for a
`False` return.  When the gate passes and the merged span update does not
raise, the keeper receives the merged span, the snapshotted donor
connections are transferred one by one, the donor is disconnected and
deleted (a failing delete is swallowed, line 338-340, so the strategy still
succeeds with the donor alive).  When the span update raises, the in-line
backup extends only the keeper and keeps the donor (lines 310-330); only a
second raise makes the strategy fail. -/
def true_trim_pipes (pipe1 pipe2 : Pipe) (h : Host) : Option TTOut :=
  if 100 < ttGateSq pipe1 pipe2 then none
  else if h.ttSpanThrows then
    if h.ttBackupThrows then none
    else some ⟨{ ttKeeper pipe1 pipe2 with curve := ttBackupCurve pipe1 pipe2 }, false, false⟩
  else
    some ⟨List.foldl (transferOne h)
            { ttKeeper pipe1 pipe2 with curve := ttFinalCurve pipe1 pipe2 }
            (ttTransfers (ttDonor pipe1 pipe2)),
          true, !h.ttDeleteThrows⟩

/-- The shared anchor selection of EXTEND_BOTH (script.py lines 383-391),
EXTEND (lines 495-506) and SEGMENT (lines 540-554): key-payload list in
source order; the payload carries the two anchor endpoints and the two side
flags (`true` means the anchor endpoint is the pipe's end point). -/
def anchorSel (c1 c2 : Line) : ℚ × XYZ × XYZ × Bool × Bool :=
  argmin4
    (distSq c1.s c2.s, c1.s, c2.s, false, false)
    (distSq c1.s c2.e, c1.s, c2.e, false, true)
    (distSq c1.e c2.s, c1.e, c2.s, true, false)
    (distSq c1.e c2.e, c1.e, c2.e, true, true)

/-- The minimum cross-endpoint squared distance used as the EXTEND_BOTH /
EXTEND / SEGMENT gate value. -/
def anchorMinSq (c1 c2 : Line) : ℚ :=
  min (min (distSq c1.s c2.s) (distSq c1.s c2.e))
      (min (distSq c1.e c2.s) (distSq c1.e c2.e))

/-- Re-span a curve after an anchor move (script.py lines 407-416): the
anchor-side endpoint becomes the midpoint, the other endpoint is kept. -/
def respan (c : Line) (atEnd : Bool) (m : XYZ) : Line :=
  if atEnd then ⟨c.s, m⟩ else ⟨m, c.e⟩

/-- The EXTEND_BOTH strategy (script.py lines 366-428): gate rejects
anchor gaps above 5.0 feet (squared: 25); otherwise both pipes are
re-spanned so their anchor endpoints meet at the anchor midpoint. -/
def extend_both_pipes_to_connect (pipe1 pipe2 : Pipe) (h : Host) : Option (Pipe × Pipe) :=
  if h.ebThrows then none
  else if 25 < (anchorSel pipe1.curve pipe2.curve).1 then none
  else
    let sel := anchorSel pipe1.curve pipe2.curve
    let mid := midpointQ sel.2.1 sel.2.2.1
    some ({ pipe1 with curve := respan pipe1.curve sel.2.2.2.1 mid },
          { pipe2 with curve := respan pipe2.curve sel.2.2.2.2 mid })

/-- Connector state of a pipe selected by side (`false` is the start-side
connector). -/
def connAt (p : Pipe) (b : Bool) : ConnState := if b then p.connE else p.connS

/-- The CONNECTOR strategy (script.py lines 459-477): the first pair of
free connectors, one per pipe, in nested-loop order, whose origins are
within 2.0 feet (squared: 4); a raising `ConnectTo` is skipped (modelled
globally by `connectThrows`). -/
def connector_connect (pipe1 pipe2 : Pipe) (h : Host) : Option (Bool × Bool) :=
  if h.connectThrows then none
  else
    [(false, false), (false, true), (true, false), (true, true)].find?
      (fun ij =>
        !(connAt pipe1 ij.1).isConnected && !(connAt pipe2 ij.2).isConnected &&
        decide (distSq (ep pipe1.curve ij.1) (ep pipe2.curve ij.2) < 4))

/-- The EXTEND strategy (script.py lines 479-531): same anchor pairing and
midpoint re-span as EXTEND_BOTH, but with a strict gate below 5.0 feet
(squared: 25). -/
def extend_pipes (pipe1 pipe2 : Pipe) (h : Host) : Option (Pipe × Pipe) :=
  if h.extendThrows then none
  else if (anchorSel pipe1.curve pipe2.curve).1 < 25 then
    let sel := anchorSel pipe1.curve pipe2.curve
    let mid := midpointQ sel.2.1 sel.2.2.1
    some ({ pipe1 with curve := respan pipe1.curve sel.2.2.2.1 mid },
          { pipe2 with curve := respan pipe2.curve sel.2.2.2.2 mid })
  else none

/-- The SEGMENT strategy (script.py lines 533-574): when the smallest
endpoint gap is strictly below 3.0 feet (squared: 9) and the host creates
the element, a brand-new pipe is returned spanning exactly the closest
endpoint pair, with pipe1's type as template, fresh free connectors and no
references; the source performs no port linking in this method and leaves
both input pipes untouched. -/
def create_segment (pipe1 pipe2 : Pipe) (h : Host) : Option Pipe :=
  if (anchorSel pipe1.curve pipe2.curve).1 < 9 then
    if h.segmentCreateOk then
      some ⟨h.freshId,
            ⟨(anchorSel pipe1.curve pipe2.curve).2.1, (anchorSel pipe1.curve pipe2.curve).2.2.1⟩,
            ⟨false, []⟩, ⟨false, []⟩, pipe1.typeId⟩
    else none
  else none

/-- Outcome tags of the reconnection chain (the string returns of
`connect_pipes_comprehensive`, with Python `False` as `FAILURE`). -/
inductive Outcome
  | TRUE_TRIM
  | EXTEND_BOTH
  | UNION
  | CONNECTOR
  | EXTEND
  | SEGMENT
  | FAILURE
deriving DecidableEq

/-- The six-strategy reconnection chain (script.py lines 430-577): each
strategy is attempted in the source's priority order and the first success
short-circuits; the UNION attempt succeeds exactly when the host primitive
reports a non-empty result (lines 449-457). -/
def connect_pipes_comprehensive (pipe1 pipe2 : Pipe) (h : Host) : Outcome :=
  if (true_trim_pipes pipe1 pipe2 h).isSome then Outcome.TRUE_TRIM
  else if (extend_both_pipes_to_connect pipe1 pipe2 h).isSome then Outcome.EXTEND_BOTH
  else if h.unionOk then Outcome.UNION
  else if (connector_connect pipe1 pipe2 h).isSome then Outcome.CONNECTOR
  else if (extend_pipes pipe1 pipe2 h).isSome then Outcome.EXTEND
  else if (create_segment pipe1 pipe2 h).isSome then Outcome.SEGMENT
  else Outcome.FAILURE

/-- Description from the specification's words: a first-success scan over
tagged strategy attempts in the contract's fixed priority order. -/
def firstSuccess : List (Outcome × Bool) → Outcome
  | [] => Outcome.FAILURE
  | (tag, ok) :: rest => if ok then tag else firstSuccess rest

/-- Description from the specification's words: the reconnection contract
tries TRUE_TRIM, EXTEND_BOTH, UNION, CONNECTOR, EXTEND, SEGMENT strictly in
this order and reports the first success, `FAILURE` if none. -/
def reconnectSpec (pipe1 pipe2 : Pipe) (h : Host) : Outcome :=
  firstSuccess
    [ (Outcome.TRUE_TRIM, (true_trim_pipes pipe1 pipe2 h).isSome),
      (Outcome.EXTEND_BOTH, (extend_both_pipes_to_connect pipe1 pipe2 h).isSome),
      (Outcome.UNION, h.unionOk),
      (Outcome.CONNECTOR, (connector_connect pipe1 pipe2 h).isSome),
      (Outcome.EXTEND, (extend_pipes pipe1 pipe2 h).isSome),
      (Outcome.SEGMENT, (create_segment pipe1 pipe2 h).isSome) ]

/-- Location of a coupling element (`coupling.Location`): a point location,
a curve location, or something else. -/
inductive JLoc
  | pt (p : XYZ)
  | curveLoc (c : Line)
  | other
deriving DecidableEq

/-- One connector of a coupling: its connected state and the owner
identities of its references. -/
structure JPort where
  isConnected : Bool
  refOwners : List ℕ
deriving DecidableEq

/-- A coupling element: identity, location and connectors.  The source
reads the connectors either through `MEPModel.ConnectorManager` or through
`ConnectorManager` directly (script.py lines 67-86); both walks run the
same algorithm over whichever connector set exists, so a single connector
list models them. -/
structure Junction where
  id : ℕ
  loc : JLoc
  ports : List JPort
deriving DecidableEq

/-- The model document as far as discovery needs it: the pipe elements
(the `OST_PipeCurves` category filter of the source is reflected by this
list containing exactly the pipe-category elements). -/
structure World where
  pipes : List Pipe
deriving DecidableEq

/-- The port-graph walk of `find_connected_pipes` (script.py lines 67-86):
for every connected coupling connector, follow every reference whose owner
is a pipe-category element other than the coupling itself. -/
def portWalk (j : Junction) (w : World) : List Pipe :=
  j.ports.flatMap (fun c =>
    if c.isConnected then
      c.refOwners.filterMap (fun oid =>
        if oid = j.id then none else w.pipes.find? (fun p => p.id == oid))
    else [])

/-- Closest point of a bound line to a point (`Curve.Project(...).XYZPoint`):
the orthogonal projection clamped to the segment. -/
def projectPt (c : Line) (p : XYZ) : XYZ :=
  let d := dirVec c
  let den := dot3 d d
  if den = 0 then c.s
  else
    let t := dot3 ⟨p.x - c.s.x, p.y - c.s.y, p.z - c.s.z⟩ d / den
    let t1 := max 0 (min 1 t)
    ⟨c.s.x + t1 * d.x, c.s.y + t1 * d.y, c.s.z + t1 * d.z⟩

/-- The geometric-proximity fallback of `find_connected_pipes` (script.py
lines 98-105): keep every pipe whose closest point to the search point is
strictly within 1.0 feet (squared: 1). -/
def proximityPipes (w : World) (pt : XYZ) : List Pipe :=
  w.pipes.filter (fun p => decide (distSq (projectPt p.curve pt) pt < 1))

/-- De-duplication by element identity keeping first occurrences
(script.py lines 110-116). -/
def dedupById : List Pipe → List ℕ → List Pipe
  | [], _ => []
  | p :: rest, seen =>
    if p.id ∈ seen then dedupById rest seen else p :: dedupById rest (p.id :: seen)

/-- Topology discovery `find_connected_pipes` (script.py lines 61-118): the
port-graph walk; when it yields nothing, the geometric fallback around the
coupling's representative point — its point location, or, for a curve
location, the curve's START point `GetEndPoint(0)` (line 94); the result is
de-duplicated by identity.  The whole body is wrapped in a catch-all
`except` (line 107), so the function never raises and an internal failure
returns what was accumulated. -/
def find_connected_pipes (j : Junction) (w : World) : List Pipe :=
  let walk := portWalk j w
  let found :=
    if walk.isEmpty then
      match j.loc with
      | JLoc.pt p => proximityPipes w p
      | JLoc.curveLoc c => proximityPipes w c.s
      | JLoc.other => []
    else walk
  dedupById found []

/-- Representative point the specification prescribes for a curve-located
junction; a second definition following the spec's words ("the midpoint of
its location curve"), for comparison with the source's `GetEndPoint(0)`. -/
def specMidpoint (c : Line) : XYZ := midpointQ c.s c.e

/-- The three escalating deletion methods of the orchestrator for one
junction (script.py lines 719-751): whether each host delete attempt
succeeds. -/
structure DeleteOps where
  del1 : Bool
  del2 : Bool
  del3 : Bool
deriving DecidableEq

/-- Everything the orchestrator's per-junction iteration observes: the
junction, the document state its discovery runs against, the host delete
behaviour and the host behaviour of the strategy chain. -/
structure JunctionCase where
  j : Junction
  w : World
  dops : DeleteOps
  h : Host
deriving DecidableEq

/-- Observable outcome of one orchestrator iteration: whether the success
counter was incremented, whether the reconnection chain was invoked, and
the chain's tag when it ran. -/
structure StepResult where
  success : Bool
  chainInvoked : Bool
  tag : Option Outcome
deriving DecidableEq

/-- One iteration of the orchestrator loop (script.py lines 639-798):
discovery must yield exactly two pipes, else the junction is a failure;
then the coupling is deleted by up to three escalating methods, and if none
succeeds the junction is recorded as a failure and the loop continues
without invoking the reconnection chain (lines 753-756); otherwise the
chain runs and every non-FAILURE tag counts as a success (lines 759-790). -/
def processOne (jc : JunctionCase) : StepResult :=
  match find_connected_pipes jc.j jc.w with
  | [p1, p2] =>
    if jc.dops.del1 || jc.dops.del2 || jc.dops.del3 then
      let r := connect_pipes_comprehensive p1 p2 jc.h
      if r = Outcome.FAILURE then ⟨false, true, some r⟩ else ⟨true, true, some r⟩
    else ⟨false, false, none⟩
  | _ => ⟨false, false, none⟩

/-- Counter update of the orchestrator loop: every junction increments
exactly one of the success or error counters (script.py lines 755, 766-798). -/
def countStep (acc : ℕ × ℕ) (jc : JunctionCase) : ℕ × ℕ :=
  if (processOne jc).success then (acc.1 + 1, acc.2) else (acc.1, acc.2 + 1)

/-- The batch run of `main` over the selected junction sequence, producing
the reported (succeeded, failed) counts (script.py lines 632-808). -/
def processJunctions (cases : List JunctionCase) : ℕ × ℕ :=
  cases.foldl countStep (0, 0)

/-- A free, reference-less connector state. -/
def freeConn : ConnState := ⟨false, []⟩

/-- Example pipe A of the specification: span (0,0,0)-(5,0,0). -/
def pA : Pipe := ⟨1, ⟨⟨0, 0, 0⟩, ⟨5, 0, 0⟩⟩, freeConn, freeConn, 5⟩

/-- Example pipe B of the specification: span (5.2,0,0)-(10,0,0). -/
def pB : Pipe := ⟨2, ⟨⟨26/5, 0, 0⟩, ⟨10, 0, 0⟩⟩, freeConn, freeConn, 5⟩

/-- Pipe B with an external connection to element 99 at its start connector
(5.2,0,0), the donor endpoint facing the keeper. -/
def pB99 : Pipe := ⟨2, ⟨⟨26/5, 0, 0⟩, ⟨10, 0, 0⟩⟩, ⟨true, [⟨99⟩]⟩, freeConn, 5⟩

/-- Pipe B with an external connection to element 77 at its end connector
(10,0,0), the donor endpoint away from the keeper. -/
def pB77 : Pipe := ⟨2, ⟨⟨26/5, 0, 0⟩, ⟨10, 0, 0⟩⟩, freeConn, ⟨true, [⟨77⟩]⟩, 5⟩

/-- A host on which no modelled operation raises, the union primitive
reports an empty result, and segment creation succeeds. -/
def hostClean : Host := ⟨false, false, false, false, false, false, false, false, true, 0⟩

/-- A host on which the merged span update raises but the backup extension
does not. -/
def hostSpanThrow : Host := ⟨true, false, false, false, false, false, false, false, true, 0⟩

/-- A host on which both the merged span update and the backup extension
raise, so TRUE_TRIM fails without a geometric reason. -/
def hostDoubleThrow : Host := ⟨true, true, false, false, false, false, false, false, true, 0⟩

/-- Expected TRUE_TRIM output for pA and pB: pA survives spanning
(0,0,0)-(10,0,0), pB is deleted. -/
def outAB : TTOut := ⟨⟨1, ⟨⟨0, 0, 0⟩, ⟨10, 0, 0⟩⟩, freeConn, freeConn, 5⟩, true, true⟩

/-- Expected TRUE_TRIM output for pA and pB99: the external connection of
the donor at (5.2,0,0) is 4.8 feet from the nearest keeper connector, so it
is NOT re-established on the survivor. -/
def out99 : TTOut := ⟨⟨1, ⟨⟨0, 0, 0⟩, ⟨10, 0, 0⟩⟩, freeConn, freeConn, 5⟩, true, true⟩

/-- Expected TRUE_TRIM output for pA and pB77: the external connection of
the donor at (10,0,0) coincides with the keeper's moved end connector and is
re-established there. -/
def out77 : TTOut := ⟨⟨1, ⟨⟨0, 0, 0⟩, ⟨10, 0, 0⟩⟩, freeConn, ⟨true, [⟨77⟩]⟩, 5⟩, true, true⟩

/-- Expected SEGMENT output for pA and pB: a fresh pipe spanning the closest
endpoint pair (5,0,0)-(5.2,0,0), with pA's type and two free unlinked
connectors. -/
def segNew : Pipe := ⟨0, ⟨⟨5, 0, 0⟩, ⟨26/5, 0, 0⟩⟩, freeConn, freeConn, 5⟩

/-- A pipe crossing the midpoint (4,0,0) of the test junction's location
curve at distance 0, but 4 feet away from that curve's start point. -/
def pipeX : Pipe := ⟨3, ⟨⟨4, 2, 0⟩, ⟨4, -2, 0⟩⟩, freeConn, freeConn, 11⟩

/-- A junction with a curve location (0,0,0)-(8,0,0) and no usable port
data, so discovery must use the geometric fallback. -/
def jx : Junction := ⟨7, JLoc.curveLoc ⟨⟨0, 0, 0⟩, ⟨8, 0, 0⟩⟩, []⟩

/-- The world containing only `pipeX`. -/
def wx : World := ⟨[pipeX]⟩

/-- A junction whose ports reference pipes 1 and 2. -/
def j9 : Junction := ⟨50, JLoc.pt ⟨5, 0, 0⟩, [⟨true, [1]⟩, ⟨true, [2]⟩]⟩

/-- The world containing the two example pipes. -/
def w9 : World := ⟨[pA, pB]⟩

/-- An orchestrator iteration input whose junction has exactly two attached
pipes but cannot be deleted by any of the three methods. -/
def jc9 : JunctionCase := ⟨j9, w9, ⟨false, false, false⟩, hostClean⟩

/-- An orchestrator iteration input whose junction deletes fine and whose
two pipes TRUE_TRIM merges. -/
def jc10 : JunctionCase := ⟨j9, w9, ⟨true, false, false⟩, hostClean⟩

theorem pick2_cases {α : Type} (x y : ℚ × α) : pick2 x y = x ∨ pick2 x y = y := by
  unfold pick2
  split_ifs <;> simp

theorem pick2_le_left {α : Type} (x y : ℚ × α) : (pick2 x y).1 ≤ x.1 := by
  unfold pick2
  split_ifs <;> linarith

theorem pick2_le_right {α : Type} (x y : ℚ × α) : (pick2 x y).1 ≤ y.1 := by
  unfold pick2
  split_ifs <;> linarith

theorem argmin4_cases {α : Type} (a b c d : ℚ × α) :
    argmin4 a b c d = a ∨ argmin4 a b c d = b ∨
    argmin4 a b c d = c ∨ argmin4 a b c d = d := by
  unfold argmin4
  rcases pick2_cases (pick2 (pick2 a b) c) d with h | h <;> rw [h]
  · rcases pick2_cases (pick2 a b) c with h2 | h2 <;> rw [h2]
    · rcases pick2_cases a b with h3 | h3 <;> rw [h3] <;> simp
    · simp
  · simp

theorem argmin4_le {α : Type} (a b c d : ℚ × α) :
    (argmin4 a b c d).1 ≤ a.1 ∧ (argmin4 a b c d).1 ≤ b.1 ∧
    (argmin4 a b c d).1 ≤ c.1 ∧ (argmin4 a b c d).1 ≤ d.1 := by
  unfold argmin4
  have h1 := pick2_le_left (pick2 (pick2 a b) c) d
  have h2 := pick2_le_right (pick2 (pick2 a b) c) d
  have h3 := pick2_le_left (pick2 a b) c
  have h4 := pick2_le_right (pick2 a b) c
  have h5 := pick2_le_left a b
  have h6 := pick2_le_right a b
  exact ⟨by linarith, by linarith, by linarith, h2⟩

theorem transferOne_spec (h : Host) (k : Pipe) (t : Ref × XYZ) :
    (transferOne h k t).curve = k.curve ∧ (transferOne h k t).id = k.id ∧
    (∀ r, r ∈ (transferOne h k t).connS.refs →
      r ∈ k.connS.refs ∨ (r = t.1 ∧ distSq k.curve.s t.2 < 1)) ∧
    (∀ r, r ∈ (transferOne h k t).connE.refs →
      r ∈ k.connE.refs ∨ (r = t.1 ∧ distSq k.curve.e t.2 < 1)) := by
  unfold transferOne
  dsimp only
  split_ifs <;>
    refine ⟨rfl, rfl, ?_, ?_⟩ <;> intro r hr <;> simp_all <;> tauto

theorem ttFold_spec (h : Host) (l : List (Ref × XYZ)) (k : Pipe) :
    (List.foldl (transferOne h) k l).curve = k.curve ∧
    (List.foldl (transferOne h) k l).id = k.id ∧
    (∀ r, r ∈ (List.foldl (transferOne h) k l).connS.refs →
      r ∈ k.connS.refs ∨ ∃ pos, (r, pos) ∈ l ∧ distSq k.curve.s pos < 1) ∧
    (∀ r, r ∈ (List.foldl (transferOne h) k l).connE.refs →
      r ∈ k.connE.refs ∨ ∃ pos, (r, pos) ∈ l ∧ distSq k.curve.e pos < 1) := by
  induction l generalizing k with
  | nil => simp
  | cons t rest ih =>
    obtain ⟨hc1, hi1, hs1, he1⟩ := transferOne_spec h k t
    obtain ⟨hc2, hi2, hs2, he2⟩ := ih (transferOne h k t)
    rw [List.foldl_cons]
    refine ⟨hc2.trans hc1, hi2.trans hi1, ?_, ?_⟩
    · intro r hr
      rcases hs2 r hr with hr2 | ⟨pos, hmem, hdist⟩
      · rcases hs1 r hr2 with hr3 | ⟨rfl, hd⟩
        · exact Or.inl hr3
        · exact Or.inr ⟨t.2, by simp, hd⟩
      · rw [hc1] at hdist
        exact Or.inr ⟨pos, by simp [hmem], hdist⟩
    · intro r hr
      rcases he2 r hr with hr2 | ⟨pos, hmem, hdist⟩
      · rcases he1 r hr2 with hr3 | ⟨rfl, hd⟩
        · exact Or.inl hr3
        · exact Or.inr ⟨t.2, by simp, hd⟩
      · rw [hc1] at hdist
        exact Or.inr ⟨pos, by simp [hmem], hdist⟩

theorem true_trim_merged_eq (pipe1 pipe2 : Pipe) (h : Host)
    (hgate : ttGateSq pipe1 pipe2 ≤ 100) (hspan : h.ttSpanThrows = false) :
    true_trim_pipes pipe1 pipe2 h =
      some ⟨List.foldl (transferOne h)
              { ttKeeper pipe1 pipe2 with curve := ttFinalCurve pipe1 pipe2 }
              (ttTransfers (ttDonor pipe1 pipe2)),
            true, !h.ttDeleteThrows⟩ := by
  unfold true_trim_pipes
  rw [if_neg (not_lt.mpr hgate), hspan]
  simp

theorem ttOriented_nonneg (mc cand : Line) :
    0 ≤ dot3 (dirVec mc) (dirVec (ttOriented mc cand)) := by
  unfold ttOriented
  split_ifs with hdp
  · have hneg : dot3 (dirVec mc) (dirVec (⟨cand.e, cand.s⟩ : Line)) =
        -(dot3 (dirVec mc) (dirVec cand)) := by
      simp only [dot3, dirVec]
      ring
    rw [hneg]
    linarith
  · exact not_lt.mp hdp

theorem ttOriented_eq_or (mc cand : Line) :
    ttOriented mc cand = cand ∨ ttOriented mc cand = ⟨cand.e, cand.s⟩ := by
  unfold ttOriented
  split_ifs <;> simp

theorem ttFinalCurve_shape (mc ec : Line) :
    ∃ i j : Bool,
      (∀ i' j' : Bool, distSq (ep mc i) (ep ec j) ≤ distSq (ep mc i') (ep ec j')) ∧
      (ttOriented mc (ttCandSpan mc (ttSel mc ec)) = ⟨ep mc (!i), ep ec (!j)⟩ ∨
       ttOriented mc (ttCandSpan mc (ttSel mc ec)) = ⟨ep ec (!j), ep mc (!i)⟩) := by
  obtain ⟨ha, hb, hc, hd⟩ := argmin4_le
    (distSq mc.s ec.s, mc.s, ec.e, false)
    (distSq mc.s ec.e, mc.s, ec.s, false)
    (distSq mc.e ec.s, mc.e, ec.e, true)
    (distSq mc.e ec.e, mc.e, ec.s, true)
  have hsel := argmin4_cases
    (distSq mc.s ec.s, mc.s, ec.e, false)
    (distSq mc.s ec.e, mc.s, ec.s, false)
    (distSq mc.e ec.s, mc.e, ec.e, true)
    (distSq mc.e ec.e, mc.e, ec.s, true)
  have hdef : argmin4
    (distSq mc.s ec.s, mc.s, ec.e, false)
    (distSq mc.s ec.e, mc.s, ec.s, false)
    (distSq mc.e ec.s, mc.e, ec.e, true)
    (distSq mc.e ec.e, mc.e, ec.s, true) = ttSel mc ec := rfl
  rw [hdef] at ha hb hc hd hsel
  rcases hsel with hs | hs | hs | hs <;> rw [hs] at ha hb hc hd
  · refine ⟨false, false, ?_, ?_⟩
    · intro i' j'
      cases i' <;> cases j'
      · simpa [ep] using ha
      · simpa [ep] using hb
      · simpa [ep] using hc
      · simpa [ep] using hd
    · rw [hs]
      have hcand : ttCandSpan mc (distSq mc.s ec.s, mc.s, ec.e, false) = ⟨ec.e, mc.e⟩ := rfl
      rw [hcand]
      rcases ttOriented_eq_or mc ⟨ec.e, mc.e⟩ with hor | hor <;> rw [hor]
      · exact Or.inr (by simp [ep])
      · exact Or.inl (by simp [ep])
  · refine ⟨false, true, ?_, ?_⟩
    · intro i' j'
      cases i' <;> cases j'
      · simpa [ep] using ha
      · simpa [ep] using hb
      · simpa [ep] using hc
      · simpa [ep] using hd
    · rw [hs]
      have hcand : ttCandSpan mc (distSq mc.s ec.e, mc.s, ec.s, false) = ⟨ec.s, mc.e⟩ := rfl
      rw [hcand]
      rcases ttOriented_eq_or mc ⟨ec.s, mc.e⟩ with hor | hor <;> rw [hor]
      · exact Or.inr (by simp [ep])
      · exact Or.inl (by simp [ep])
  · refine ⟨true, false, ?_, ?_⟩
    · intro i' j'
      cases i' <;> cases j'
      · simpa [ep] using ha
      · simpa [ep] using hb
      · simpa [ep] using hc
      · simpa [ep] using hd
    · rw [hs]
      have hcand : ttCandSpan mc (distSq mc.e ec.s, mc.e, ec.e, true) = ⟨mc.s, ec.e⟩ := rfl
      rw [hcand]
      rcases ttOriented_eq_or mc ⟨mc.s, ec.e⟩ with hor | hor <;> rw [hor]
      · exact Or.inl (by simp [ep])
      · exact Or.inr (by simp [ep])
  · refine ⟨true, true, ?_, ?_⟩
    · intro i' j'
      cases i' <;> cases j'
      · simpa [ep] using ha
      · simpa [ep] using hb
      · simpa [ep] using hc
      · simpa [ep] using hd
    · rw [hs]
      have hcand : ttCandSpan mc (distSq mc.e ec.e, mc.e, ec.s, true) = ⟨mc.s, ec.s⟩ := rfl
      rw [hcand]
      rcases ttOriented_eq_or mc ⟨mc.s, ec.s⟩ with hor | hor <;> rw [hor]
      · exact Or.inl (by simp [ep])
      · exact Or.inr (by simp [ep])

theorem ttKeeper_longer (pipe1 pipe2 : Pipe) :
    lenSq (ttDonor pipe1 pipe2).curve ≤ lenSq (ttKeeper pipe1 pipe2).curve := by
  unfold ttKeeper ttDonor
  split_ifs with hlen
  · exact hlen
  · exact le_of_lt (not_le.mp hlen)

/-- C1: for every pair of segments passing the TRUE_TRIM gate (minimum
cross-endpoint distance at most 10.0 feet; above that the pair is
rejected), TRUE_TRIM keeps the longer segment, deletes the other, and gives
the keeper a span whose endpoints are the keeper endpoint NOT in the
nearest cross-endpoint pairing and the donor endpoint NOT in that pairing
(the donor's far endpoint), possibly with start and end swapped to
preserve direction; in particular A=(0,0,0)-(5,0,0), B=(5.2,0,0)-(10,0,0)
merge into one segment (0,0,0)-(10,0,0) kept on A, with B deleted. -/
theorem true_trim_merge_geometry :
    (∀ (pipe1 pipe2 : Pipe) (h : Host),
      h.ttSpanThrows = false → h.ttDeleteThrows = false → ttGateSq pipe1 pipe2 ≤ 100 →
      ∃ out, true_trim_pipes pipe1 pipe2 h = some out ∧ out.mergedPath = true ∧
        out.donorDeleted = true ∧ out.keeper.id = (ttKeeper pipe1 pipe2).id ∧
        lenSq (ttDonor pipe1 pipe2).curve ≤ lenSq (ttKeeper pipe1 pipe2).curve ∧
        ∃ i j : Bool,
          (∀ i' j' : Bool,
            distSq (ep (ttKeeper pipe1 pipe2).curve i) (ep (ttDonor pipe1 pipe2).curve j) ≤
            distSq (ep (ttKeeper pipe1 pipe2).curve i') (ep (ttDonor pipe1 pipe2).curve j')) ∧
          (out.keeper.curve =
              ⟨ep (ttKeeper pipe1 pipe2).curve (!i), ep (ttDonor pipe1 pipe2).curve (!j)⟩ ∨
           out.keeper.curve =
              ⟨ep (ttDonor pipe1 pipe2).curve (!j), ep (ttKeeper pipe1 pipe2).curve (!i)⟩)) ∧
    (true_trim_pipes pA pB hostClean = some outAB ∧ outAB.keeper.id = pA.id ∧
      outAB.keeper.curve = ⟨⟨0, 0, 0⟩, ⟨10, 0, 0⟩⟩ ∧ outAB.donorDeleted = true) := by
  constructor
  · intro pipe1 pipe2 h hspan hdel hgate
    obtain ⟨hcur, hid, hrs, hre⟩ := ttFold_spec h (ttTransfers (ttDonor pipe1 pipe2))
      { ttKeeper pipe1 pipe2 with curve := ttFinalCurve pipe1 pipe2 }
    refine ⟨_, true_trim_merged_eq pipe1 pipe2 h hgate hspan, rfl, by simp [hdel], hid,
      ttKeeper_longer pipe1 pipe2, ?_⟩
    obtain ⟨i, j, hmin, hor⟩ :=
      ttFinalCurve_shape (ttKeeper pipe1 pipe2).curve (ttDonor pipe1 pipe2).curve
    refine ⟨i, j, hmin, ?_⟩
    rw [hcur]
    exact hor
  · refine ⟨?_, rfl, rfl, rfl⟩
    norm_num [true_trim_pipes, ttGateSq, ttKeeper, ttDonor, ttSel, argmin4, pick2, distSq,
      lenSq, ttFinalCurve, ttCandSpan, ttOriented, ttBackupCurve, ttTransfers, transferOne,
      dirVec, dot3, ep, pA, pB, hostClean, outAB, freeConn, midpointQ]

/-- Witness for C1: the general part of `true_trim_merge_geometry`
instantiated at the example segments with every hypothesis discharged. -/
theorem true_trim_merge_geometry_witness :
    ∃ out, true_trim_pipes pA pB hostClean = some out ∧ out.mergedPath = true ∧
      out.donorDeleted = true ∧ out.keeper.id = (ttKeeper pA pB).id ∧
      lenSq (ttDonor pA pB).curve ≤ lenSq (ttKeeper pA pB).curve ∧
      ∃ i j : Bool,
        (∀ i' j' : Bool,
          distSq (ep (ttKeeper pA pB).curve i) (ep (ttDonor pA pB).curve j) ≤
          distSq (ep (ttKeeper pA pB).curve i') (ep (ttDonor pA pB).curve j')) ∧
        (out.keeper.curve = ⟨ep (ttKeeper pA pB).curve (!i), ep (ttDonor pA pB).curve (!j)⟩ ∨
         out.keeper.curve = ⟨ep (ttDonor pA pB).curve (!j), ep (ttKeeper pA pB).curve (!i)⟩) :=
  true_trim_merge_geometry.1 pA pB hostClean rfl rfl
    (by norm_num [ttGateSq, distSq, pA, pB])

/-- C3: for every successful TRUE_TRIM merge, the surviving span's direction
has non-negative dot product with the original keeper direction: the
candidate span is compared against the keeper's original direction and
swapped when the dot product is negative, so orientation never silently
flips. -/
theorem true_trim_preserves_direction (pipe1 pipe2 : Pipe) (h : Host) (out : TTOut)
    (hres : true_trim_pipes pipe1 pipe2 h = some out) (hm : out.mergedPath = true) :
    0 ≤ dot3 (dirVec (ttKeeper pipe1 pipe2).curve) (dirVec out.keeper.curve) := by
  unfold true_trim_pipes at hres
  by_cases hg : 100 < ttGateSq pipe1 pipe2
  · rw [if_pos hg] at hres
    simp at hres
  rw [if_neg hg] at hres
  by_cases hs : h.ttSpanThrows = true
  · rw [if_pos hs] at hres
    by_cases hb : h.ttBackupThrows = true
    · rw [if_pos hb] at hres
      simp at hres
    · rw [if_neg hb, Option.some_inj] at hres
      rw [← hres] at hm
      simp at hm
  · rw [if_neg hs, Option.some_inj] at hres
    obtain ⟨hcur, _, _, _⟩ := ttFold_spec h (ttTransfers (ttDonor pipe1 pipe2))
      { ttKeeper pipe1 pipe2 with curve := ttFinalCurve pipe1 pipe2 }
    rw [← hres]
    dsimp only
    rw [hcur]
    exact ttOriented_nonneg _ _

/-- Witness for C3: the direction invariant evaluated on the merged example
segments. -/
theorem true_trim_preserves_direction_witness :
    0 ≤ dot3 (dirVec (ttKeeper pA pB).curve) (dirVec outAB.keeper.curve) :=
  true_trim_preserves_direction pA pB hostClean outAB
    (by norm_num [true_trim_pipes, ttGateSq, ttKeeper, ttDonor, ttSel, argmin4, pick2, distSq,
      lenSq, ttFinalCurve, ttCandSpan, ttOriented, ttBackupCurve, ttTransfers, transferOne,
      dirVec, dot3, ep, pA, pB, hostClean, outAB, freeConn, midpointQ]) rfl

/-- C5: when the gate passes and the merged span update raises, TRUE_TRIM
falls back in-line to a single-sided extension of only the keeper to the
anchor connection point, keeps the donor alive, and still reports success;
it reports failure only when the backup extension raises too. -/
theorem true_trim_span_throw_fallback (pipe1 pipe2 : Pipe) (h : Host)
    (hgate : ttGateSq pipe1 pipe2 ≤ 100) (hthrow : h.ttSpanThrows = true) :
    (h.ttBackupThrows = false →
      ∃ out, true_trim_pipes pipe1 pipe2 h = some out ∧ out.mergedPath = false ∧
        out.donorDeleted = false ∧ out.keeper.id = (ttKeeper pipe1 pipe2).id ∧
        out.keeper.curve = ttBackupCurve pipe1 pipe2) ∧
    (h.ttBackupThrows = true → true_trim_pipes pipe1 pipe2 h = none) := by
  constructor
  · intro hb
    refine ⟨⟨{ ttKeeper pipe1 pipe2 with curve := ttBackupCurve pipe1 pipe2 }, false, false⟩,
      ?_, rfl, rfl, rfl, rfl⟩
    unfold true_trim_pipes
    rw [if_neg (not_lt.mpr hgate), hthrow, hb]
    simp
  · intro hb
    unfold true_trim_pipes
    rw [if_neg (not_lt.mpr hgate), hthrow, hb]
    simp

/-- Witness for C5: the backup path evaluated on the example segments under
a host that rejects the merged span update. -/
theorem true_trim_span_throw_fallback_witness :
    ∃ out, true_trim_pipes pA pB hostSpanThrow = some out ∧ out.mergedPath = false ∧
      out.donorDeleted = false ∧ out.keeper.id = (ttKeeper pA pB).id ∧
      out.keeper.curve = ttBackupCurve pA pB :=
  (true_trim_span_throw_fallback pA pB hostSpanThrow
    (by norm_num [ttGateSq, distSq, pA, pB]) rfl).1 rfl

/-- C2: the reconnection chain tries TRUE_TRIM, EXTEND_BOTH, UNION,
CONNECTOR, EXTEND, SEGMENT strictly in this order, returns the tag of the
first strategy that succeeds without attempting any later one, and reports
FAILURE exactly when all six declined or errored; in particular, whenever
TRUE_TRIM fails but EXTEND_BOTH succeeds, the outcome is EXTEND_BOTH, not
FAILURE.  (The literal instance in the claim, a failing TRUE_TRIM distance
gate together with a passing EXTEND_BOTH gate, is vacuous: both gates
compare the same minimum cross-endpoint distance against 10.0 and 5.0 feet
respectively, so the proved fallback covers every way TRUE_TRIM can fail.) -/
theorem connect_chain_first_success (pipe1 pipe2 : Pipe) (h : Host) :
    connect_pipes_comprehensive pipe1 pipe2 h = reconnectSpec pipe1 pipe2 h ∧
    (connect_pipes_comprehensive pipe1 pipe2 h = Outcome.FAILURE ↔
      (true_trim_pipes pipe1 pipe2 h = none ∧
       extend_both_pipes_to_connect pipe1 pipe2 h = none ∧
       h.unionOk = false ∧
       connector_connect pipe1 pipe2 h = none ∧
       extend_pipes pipe1 pipe2 h = none ∧
       create_segment pipe1 pipe2 h = none)) ∧
    (true_trim_pipes pipe1 pipe2 h = none →
     (extend_both_pipes_to_connect pipe1 pipe2 h).isSome = true →
     connect_pipes_comprehensive pipe1 pipe2 h = Outcome.EXTEND_BOTH) := by
  refine ⟨rfl, ?_, ?_⟩
  · unfold connect_pipes_comprehensive
    cases h1 : true_trim_pipes pipe1 pipe2 h <;>
      cases h2 : extend_both_pipes_to_connect pipe1 pipe2 h <;>
        cases h3 : h.unionOk <;>
          cases h4 : connector_connect pipe1 pipe2 h <;>
            cases h5 : extend_pipes pipe1 pipe2 h <;>
              cases h6 : create_segment pipe1 pipe2 h <;>
                simp
  · intro h1 h2
    unfold connect_pipes_comprehensive
    rw [h1]
    simp [h2]

/-- Witness for C2: with a host that rejects both the merged span update
and its backup, TRUE_TRIM fails on the example segments while EXTEND_BOTH
succeeds, and the chain reports EXTEND_BOTH. -/
theorem connect_chain_first_success_witness :
    connect_pipes_comprehensive pA pB hostDoubleThrow = Outcome.EXTEND_BOTH :=
  (connect_chain_first_success pA pB hostDoubleThrow).2.2
    (by norm_num [true_trim_pipes, ttGateSq, distSq, pA, pB, hostDoubleThrow])
    (by norm_num [extend_both_pipes_to_connect, anchorSel, argmin4, pick2, distSq,
      respan, midpointQ, pA, pB, hostDoubleThrow])

/-- Counterexample for C4: with the example keeper A=(0,0,0)-(5,0,0) and a
collinear in-tolerance donor B=(5.2,0,0)-(10,0,0) carrying an external
connection to element 99 at its start connector (5.2,0,0), TRUE_TRIM merges
and deletes the donor, but the recorded position is 4.8 feet from the
nearest keeper connector (above the 1.0-foot matching tolerance), so the
donor's external connection is NOT present on the surviving segment —
refuting the claim that all of the discarded segment's external connections
survive for collinear in-tolerance pairs. -/
theorem true_trim_drops_far_connection :
    true_trim_pipes pA pB99 hostClean = some out99 ∧
    ttGateSq pA pB99 ≤ 100 ∧
    pB99.connS.isConnected = true ∧ Ref.mk 99 ∈ pB99.connS.refs ∧
    out99.donorDeleted = true ∧
    Ref.mk 99 ∉ out99.keeper.connS.refs ∧ Ref.mk 99 ∉ out99.keeper.connE.refs := by
  refine ⟨?_, by norm_num [ttGateSq, distSq, pA, pB99], rfl, by simp [pB99], rfl,
    by simp [out99, freeConn], by simp [out99, freeConn]⟩
  norm_num [true_trim_pipes, ttGateSq, ttKeeper, ttDonor, ttSel, argmin4, pick2, distSq,
    lenSq, ttFinalCurve, ttCandSpan, ttOriented, ttBackupCurve, ttTransfers, transferOne,
    dirVec, dot3, ep, pA, pB99, hostClean, out99, freeConn, midpointQ]

/-- C4 (amended): TRUE_TRIM snapshots every external connection of the
donor (connected connector, reference owned by another element) before the
donor is deleted, and after the span update a reference appears on a port
of the surviving keeper only if it was already there or it is a snapshotted
donor connection whose recorded position lies strictly within 1.0 feet of
that (then free) keeper port; donor connections farther than that from
every free keeper port are dropped rather than re-established. -/
theorem true_trim_transfer_sound (pipe1 pipe2 : Pipe) (h : Host) (out : TTOut)
    (hres : true_trim_pipes pipe1 pipe2 h = some out) (hm : out.mergedPath = true) (r : Ref) :
    ((ttDonor pipe1 pipe2).connS.isConnected = true → r ∈ (ttDonor pipe1 pipe2).connS.refs →
      r.ownerId ≠ (ttDonor pipe1 pipe2).id →
      (r, (ttDonor pipe1 pipe2).curve.s) ∈ ttTransfers (ttDonor pipe1 pipe2)) ∧
    ((ttDonor pipe1 pipe2).connE.isConnected = true → r ∈ (ttDonor pipe1 pipe2).connE.refs →
      r.ownerId ≠ (ttDonor pipe1 pipe2).id →
      (r, (ttDonor pipe1 pipe2).curve.e) ∈ ttTransfers (ttDonor pipe1 pipe2)) ∧
    (r ∈ out.keeper.connS.refs → r ∈ (ttKeeper pipe1 pipe2).connS.refs ∨
      ∃ pos, (r, pos) ∈ ttTransfers (ttDonor pipe1 pipe2) ∧
        distSq out.keeper.curve.s pos < 1) ∧
    (r ∈ out.keeper.connE.refs → r ∈ (ttKeeper pipe1 pipe2).connE.refs ∨
      ∃ pos, (r, pos) ∈ ttTransfers (ttDonor pipe1 pipe2) ∧
        distSq out.keeper.curve.e pos < 1) := by
  refine ⟨?_, ?_, ?_, ?_⟩
  · intro hc hrm hro
    unfold ttTransfers
    rw [hc]
    simp only [if_true, List.mem_append, List.mem_map, List.mem_filter]
    exact Or.inl ⟨r, ⟨hrm, by simpa using hro⟩, rfl⟩
  · intro hc hrm hro
    unfold ttTransfers
    rw [hc]
    simp only [if_true, List.mem_append, List.mem_map, List.mem_filter]
    exact Or.inr ⟨r, ⟨hrm, by simpa using hro⟩, rfl⟩
  all_goals
    unfold true_trim_pipes at hres
    by_cases hg : 100 < ttGateSq pipe1 pipe2
    · rw [if_pos hg] at hres
      simp at hres
    · rw [if_neg hg] at hres
      by_cases hs : h.ttSpanThrows = true
      · rw [if_pos hs] at hres
        by_cases hb : h.ttBackupThrows = true
        · rw [if_pos hb] at hres
          simp at hres
        · rw [if_neg hb, Option.some_inj] at hres
          rw [← hres] at hm
          simp at hm
      · rw [if_neg hs, Option.some_inj] at hres
        obtain ⟨hcur, hid, hrs, hre⟩ := ttFold_spec h (ttTransfers (ttDonor pipe1 pipe2))
          { ttKeeper pipe1 pipe2 with curve := ttFinalCurve pipe1 pipe2 }
        rw [← hres]
        dsimp only
        rw [hcur]
        first
        | exact hrs r
        | exact hre r

/-- Witness for C4's amended theorem: the donor connection at (10,0,0) is
re-established on the keeper's moved end connector, and the theorem
accounts for it as a snapshotted transfer within tolerance. -/
theorem true_trim_transfer_sound_witness :
    Ref.mk 77 ∈ (ttKeeper pA pB77).connE.refs ∨
    ∃ pos, (Ref.mk 77, pos) ∈ ttTransfers (ttDonor pA pB77) ∧
      distSq out77.keeper.curve.e pos < 1 :=
  (true_trim_transfer_sound pA pB77 hostClean out77
    (by norm_num [true_trim_pipes, ttGateSq, ttKeeper, ttDonor, ttSel, argmin4, pick2, distSq,
      lenSq, ttFinalCurve, ttCandSpan, ttOriented, ttBackupCurve, ttTransfers, transferOne,
      dirVec, dot3, ep, pA, pB77, hostClean, out77, freeConn, midpointQ]) rfl ⟨77⟩).2.2.2
    (by simp [out77])

theorem anchorSel_key (c1 c2 : Line) : (anchorSel c1 c2).1 = anchorMinSq c1 c2 := by
  obtain ⟨h1, h2, h3, h4⟩ := argmin4_le
    (distSq c1.s c2.s, c1.s, c2.s, false, false)
    (distSq c1.s c2.e, c1.s, c2.e, false, true)
    (distSq c1.e c2.s, c1.e, c2.s, true, false)
    (distSq c1.e c2.e, c1.e, c2.e, true, true)
  have hcs := argmin4_cases
    (distSq c1.s c2.s, c1.s, c2.s, false, false)
    (distSq c1.s c2.e, c1.s, c2.e, false, true)
    (distSq c1.e c2.s, c1.e, c2.s, true, false)
    (distSq c1.e c2.e, c1.e, c2.e, true, true)
  have hdef : argmin4
    (distSq c1.s c2.s, c1.s, c2.s, false, false)
    (distSq c1.s c2.e, c1.s, c2.e, false, true)
    (distSq c1.e c2.s, c1.e, c2.s, true, false)
    (distSq c1.e c2.e, c1.e, c2.e, true, true) = anchorSel c1 c2 := rfl
  rw [hdef] at h1 h2 h3 h4 hcs
  refine le_antisymm (le_min (le_min h1 h2) (le_min h3 h4)) ?_
  unfold anchorMinSq
  rcases hcs with hs | hs | hs | hs <;> rw [hs] <;> simp [min_le_iff]

/-- C7: for every pair whose anchor gap is at most 5.0 feet, EXTEND_BOTH
(when its host operations do not raise) re-spans both segments so that each
segment's anchor endpoint becomes the anchor midpoint while the far
endpoints are unchanged, deleting and creating nothing (both returned
segments keep their identities); for gaps above 5.0 feet it reports failure
without touching either segment. -/
theorem extend_both_characterization (pipe1 pipe2 : Pipe) (h : Host)
    (hthrow : h.ebThrows = false) :
    (anchorMinSq pipe1.curve pipe2.curve ≤ 25 →
      ∃ q1 q2, extend_both_pipes_to_connect pipe1 pipe2 h = some (q1, q2) ∧
        q1.id = pipe1.id ∧ q2.id = pipe2.id ∧
        q1.connS = pipe1.connS ∧ q1.connE = pipe1.connE ∧
        q2.connS = pipe2.connS ∧ q2.connE = pipe2.connE ∧
        ∃ i j : Bool,
          (∀ i' j' : Bool, distSq (ep pipe1.curve i) (ep pipe2.curve j) ≤
            distSq (ep pipe1.curve i') (ep pipe2.curve j')) ∧
          q1.curve = respan pipe1.curve i (midpointQ (ep pipe1.curve i) (ep pipe2.curve j)) ∧
          q2.curve = respan pipe2.curve j (midpointQ (ep pipe1.curve i) (ep pipe2.curve j))) ∧
    (25 < anchorMinSq pipe1.curve pipe2.curve →
      extend_both_pipes_to_connect pipe1 pipe2 h = none) := by
  constructor
  · intro hle
    have hg : ¬(25 < (anchorSel pipe1.curve pipe2.curve).1) := by
      rw [anchorSel_key]
      exact not_lt.mpr hle
    have heq : extend_both_pipes_to_connect pipe1 pipe2 h =
        some ({ pipe1 with curve := respan pipe1.curve (anchorSel pipe1.curve pipe2.curve).2.2.2.1 (midpointQ (anchorSel pipe1.curve pipe2.curve).2.1 (anchorSel pipe1.curve pipe2.curve).2.2.1) },
              { pipe2 with curve := respan pipe2.curve (anchorSel pipe1.curve pipe2.curve).2.2.2.2 (midpointQ (anchorSel pipe1.curve pipe2.curve).2.1 (anchorSel pipe1.curve pipe2.curve).2.2.1) }) := by
      unfold extend_both_pipes_to_connect
      rw [hthrow, if_neg hg]
      simp
    refine ⟨_, _, heq, rfl, rfl, rfl, rfl, rfl, rfl, ?_⟩
    obtain ⟨h1, h2, h3, h4⟩ := argmin4_le
      (distSq pipe1.curve.s pipe2.curve.s, pipe1.curve.s, pipe2.curve.s, false, false)
      (distSq pipe1.curve.s pipe2.curve.e, pipe1.curve.s, pipe2.curve.e, false, true)
      (distSq pipe1.curve.e pipe2.curve.s, pipe1.curve.e, pipe2.curve.s, true, false)
      (distSq pipe1.curve.e pipe2.curve.e, pipe1.curve.e, pipe2.curve.e, true, true)
    have hcs := argmin4_cases
      (distSq pipe1.curve.s pipe2.curve.s, pipe1.curve.s, pipe2.curve.s, false, false)
      (distSq pipe1.curve.s pipe2.curve.e, pipe1.curve.s, pipe2.curve.e, false, true)
      (distSq pipe1.curve.e pipe2.curve.s, pipe1.curve.e, pipe2.curve.s, true, false)
      (distSq pipe1.curve.e pipe2.curve.e, pipe1.curve.e, pipe2.curve.e, true, true)
    have hdef : argmin4
      (distSq pipe1.curve.s pipe2.curve.s, pipe1.curve.s, pipe2.curve.s, false, false)
      (distSq pipe1.curve.s pipe2.curve.e, pipe1.curve.s, pipe2.curve.e, false, true)
      (distSq pipe1.curve.e pipe2.curve.s, pipe1.curve.e, pipe2.curve.s, true, false)
      (distSq pipe1.curve.e pipe2.curve.e, pipe1.curve.e, pipe2.curve.e, true, true) =
        anchorSel pipe1.curve pipe2.curve := rfl
    rw [hdef] at h1 h2 h3 h4 hcs
    rcases hcs with hs | hs | hs | hs <;> rw [hs] at h1 h2 h3 h4
    · refine ⟨false, false, ?_, by rw [hs]; simp [ep], by rw [hs]; simp [ep]⟩
      intro i' j'
      cases i' <;> cases j'
      · simpa [ep] using h1
      · simpa [ep] using h2
      · simpa [ep] using h3
      · simpa [ep] using h4
    · refine ⟨false, true, ?_, by rw [hs]; simp [ep], by rw [hs]; simp [ep]⟩
      intro i' j'
      cases i' <;> cases j'
      · simpa [ep] using h1
      · simpa [ep] using h2
      · simpa [ep] using h3
      · simpa [ep] using h4
    · refine ⟨true, false, ?_, by rw [hs]; simp [ep], by rw [hs]; simp [ep]⟩
      intro i' j'
      cases i' <;> cases j'
      · simpa [ep] using h1
      · simpa [ep] using h2
      · simpa [ep] using h3
      · simpa [ep] using h4
    · refine ⟨true, true, ?_, by rw [hs]; simp [ep], by rw [hs]; simp [ep]⟩
      intro i' j'
      cases i' <;> cases j'
      · simpa [ep] using h1
      · simpa [ep] using h2
      · simpa [ep] using h3
      · simpa [ep] using h4
  · intro hgt
    have hg2 : 25 < (anchorSel pipe1.curve pipe2.curve).1 := by
      rw [anchorSel_key]
      exact hgt
    unfold extend_both_pipes_to_connect
    rw [hthrow]
    simp [hg2]

/-- Witness for C7: EXTEND_BOTH applied to the example segments, whose
anchor gap of 0.2 feet passes the 5.0-foot gate. -/
theorem extend_both_characterization_witness :
    ∃ q1 q2, extend_both_pipes_to_connect pA pB hostClean = some (q1, q2) ∧
      q1.id = pA.id ∧ q2.id = pB.id ∧
      q1.connS = pA.connS ∧ q1.connE = pA.connE ∧
      q2.connS = pB.connS ∧ q2.connE = pB.connE ∧
      ∃ i j : Bool,
        (∀ i' j' : Bool, distSq (ep pA.curve i) (ep pB.curve j) ≤
          distSq (ep pA.curve i') (ep pB.curve j')) ∧
        q1.curve = respan pA.curve i (midpointQ (ep pA.curve i) (ep pB.curve j)) ∧
        q2.curve = respan pB.curve j (midpointQ (ep pA.curve i) (ep pB.curve j)) :=
  (extend_both_characterization pA pB hostClean rfl).1
    (by norm_num [anchorMinSq, distSq, pA, pB])

/-- Counterexample for C6: on the example segments the SEGMENT strategy
succeeds (gap 0.2 feet, below 3.0), both original pipes have only free
ports available for linking, yet the created bridge pipe comes back with
both of its ports unconnected and reference-less — the source performs no
port linking in this method, refuting the claim that the new segment's
ports are linked to the originals' nearest free ports. -/
theorem create_segment_no_linking :
    create_segment pA pB hostClean = some segNew ∧
    anchorMinSq pA.curve pB.curve < 9 ∧
    pA.connS.isConnected = false ∧ pA.connE.isConnected = false ∧
    pB.connS.isConnected = false ∧ pB.connE.isConnected = false ∧
    segNew.connS.isConnected = false ∧ segNew.connE.isConnected = false ∧
    segNew.connS.refs = [] ∧ segNew.connE.refs = [] := by
  refine ⟨?_, by norm_num [anchorMinSq, distSq, pA, pB], rfl, rfl, rfl, rfl, rfl, rfl, rfl, rfl⟩
  norm_num [create_segment, anchorSel, argmin4, pick2, distSq, pA, pB, hostClean,
    segNew, freeConn]

/-- C6 (amended): the SEGMENT strategy succeeds only when the smallest
endpoint gap is under 3.0 feet and the host creates the element; on success
the brand-new segment spans exactly the closest endpoint pair (one endpoint
of each original), uses the first segment's type as its template, and both
its ports come back free and unlinked — the strategy performs no port
linking; the original segments are returned untouched (the strategy reads
only their geometry). -/
theorem create_segment_characterization (pipe1 pipe2 : Pipe) (h : Host) (np : Pipe)
    (hres : create_segment pipe1 pipe2 h = some np) :
    np.typeId = pipe1.typeId ∧ np.id = h.freshId ∧
    np.connS = ⟨false, []⟩ ∧ np.connE = ⟨false, []⟩ ∧
    (np.curve.s = pipe1.curve.s ∨ np.curve.s = pipe1.curve.e) ∧
    (np.curve.e = pipe2.curve.s ∨ np.curve.e = pipe2.curve.e) ∧
    distSq np.curve.s np.curve.e < 9 ∧
    (∀ a b : Bool, distSq np.curve.s np.curve.e ≤ distSq (ep pipe1.curve a) (ep pipe2.curve b)) := by
  unfold create_segment at hres
  by_cases h9 : (anchorSel pipe1.curve pipe2.curve).1 < 9
  swap
  · rw [if_neg h9] at hres
    simp at hres
  rw [if_pos h9] at hres
  by_cases hok : h.segmentCreateOk = true
  swap
  · rw [if_neg hok] at hres
    simp at hres
  rw [if_pos hok, Option.some_inj] at hres
  obtain ⟨h1, h2, h3, h4⟩ := argmin4_le
    (distSq pipe1.curve.s pipe2.curve.s, pipe1.curve.s, pipe2.curve.s, false, false)
    (distSq pipe1.curve.s pipe2.curve.e, pipe1.curve.s, pipe2.curve.e, false, true)
    (distSq pipe1.curve.e pipe2.curve.s, pipe1.curve.e, pipe2.curve.s, true, false)
    (distSq pipe1.curve.e pipe2.curve.e, pipe1.curve.e, pipe2.curve.e, true, true)
  have hcs := argmin4_cases
    (distSq pipe1.curve.s pipe2.curve.s, pipe1.curve.s, pipe2.curve.s, false, false)
    (distSq pipe1.curve.s pipe2.curve.e, pipe1.curve.s, pipe2.curve.e, false, true)
    (distSq pipe1.curve.e pipe2.curve.s, pipe1.curve.e, pipe2.curve.s, true, false)
    (distSq pipe1.curve.e pipe2.curve.e, pipe1.curve.e, pipe2.curve.e, true, true)
  have hdef : argmin4
    (distSq pipe1.curve.s pipe2.curve.s, pipe1.curve.s, pipe2.curve.s, false, false)
    (distSq pipe1.curve.s pipe2.curve.e, pipe1.curve.s, pipe2.curve.e, false, true)
    (distSq pipe1.curve.e pipe2.curve.s, pipe1.curve.e, pipe2.curve.s, true, false)
    (distSq pipe1.curve.e pipe2.curve.e, pipe1.curve.e, pipe2.curve.e, true, true) =
      anchorSel pipe1.curve pipe2.curve := rfl
  rw [hdef] at h1 h2 h3 h4 hcs
  rw [← hres]
  rcases hcs with hs | hs | hs | hs <;> rw [hs] at h1 h2 h3 h4 h9 <;> rw [hs] <;>
    refine ⟨rfl, rfl, rfl, rfl, ?_, ?_, ?_, ?_⟩
  · exact Or.inl rfl
  · exact Or.inl rfl
  · simpa using h9
  · intro a b
    cases a <;> cases b
    · simpa [ep] using h1
    · simpa [ep] using h2
    · simpa [ep] using h3
    · simpa [ep] using h4
  · exact Or.inl rfl
  · exact Or.inr rfl
  · simpa using h9
  · intro a b
    cases a <;> cases b
    · simpa [ep] using h1
    · simpa [ep] using h2
    · simpa [ep] using h3
    · simpa [ep] using h4
  · exact Or.inr rfl
  · exact Or.inl rfl
  · simpa using h9
  · intro a b
    cases a <;> cases b
    · simpa [ep] using h1
    · simpa [ep] using h2
    · simpa [ep] using h3
    · simpa [ep] using h4
  · exact Or.inr rfl
  · exact Or.inr rfl
  · simpa using h9
  · intro a b
    cases a <;> cases b
    · simpa [ep] using h1
    · simpa [ep] using h2
    · simpa [ep] using h3
    · simpa [ep] using h4

/-- Witness for C6's amended theorem: the characterization evaluated on the
bridge pipe created between the example segments. -/
theorem create_segment_characterization_witness :
    segNew.typeId = pA.typeId ∧ segNew.id = hostClean.freshId ∧
    segNew.connS = ⟨false, []⟩ ∧ segNew.connE = ⟨false, []⟩ ∧
    (segNew.curve.s = pA.curve.s ∨ segNew.curve.s = pA.curve.e) ∧
    (segNew.curve.e = pB.curve.s ∨ segNew.curve.e = pB.curve.e) ∧
    distSq segNew.curve.s segNew.curve.e < 9 ∧
    (∀ a b : Bool, distSq segNew.curve.s segNew.curve.e ≤ distSq (ep pA.curve a) (ep pB.curve b)) :=
  create_segment_characterization pA pB hostClean segNew
    (by norm_num [create_segment, anchorSel, argmin4, pick2, distSq, pA, pB, hostClean,
      segNew, freeConn])

theorem dedupById_nodup (l : List Pipe) (seen : List ℕ) :
    ((dedupById l seen).map Pipe.id).Nodup ∧
    ∀ i ∈ (dedupById l seen).map Pipe.id, i ∉ seen := by
  induction l generalizing seen with
  | nil => simp [dedupById]
  | cons p rest ih =>
    by_cases hmem : p.id ∈ seen
    · rw [show dedupById (p :: rest) seen = dedupById rest seen from by
        simp [dedupById, hmem]]
      exact ih seen
    · obtain ⟨hn, hs⟩ := ih (p.id :: seen)
      rw [show dedupById (p :: rest) seen = p :: dedupById rest (p.id :: seen) from by
        simp [dedupById, hmem]]
      simp only [List.map_cons, List.nodup_cons, List.mem_cons]
      refine ⟨⟨fun hc => hs p.id hc (List.mem_cons_self _ _), hn⟩, ?_⟩
      rintro i (rfl | hi)
      · exact hmem
      · exact fun hiseen => hs i hi (List.mem_cons_of_mem _ hiseen)

/-- C8 (amended): topology discovery (a total function, mirroring the
source's single catch-all handler that returns the accumulated list)
applies the geometric-proximity fallback only when the port-graph walk
yields no segments; the fallback's representative point is the junction's
point location or — for a curve location — the curve's START point
(`GetEndPoint(0)`, not the midpoint); the fallback keeps exactly the
segments whose closest point to the representative point is strictly
within 1.0 feet; and the result is de-duplicated by element identity. -/
theorem find_connected_characterization (j : Junction) (w : World) :
    (portWalk j w ≠ [] → find_connected_pipes j w = dedupById (portWalk j w) []) ∧
    (portWalk j w = [] → ∀ p : XYZ, j.loc = JLoc.pt p →
      find_connected_pipes j w = dedupById (proximityPipes w p) []) ∧
    (portWalk j w = [] → ∀ c : Line, j.loc = JLoc.curveLoc c →
      find_connected_pipes j w = dedupById (proximityPipes w c.s) []) ∧
    (∀ pt : XYZ, ∀ p : Pipe,
      p ∈ proximityPipes w pt ↔ p ∈ w.pipes ∧ distSq (projectPt p.curve pt) pt < 1) ∧
    ((find_connected_pipes j w).map Pipe.id).Nodup := by
  refine ⟨?_, ?_, ?_, ?_, ?_⟩
  · intro hne
    have hie : (portWalk j w).isEmpty = false := by
      cases hw : portWalk j w
      · exact absurd hw hne
      · rfl
    simp [find_connected_pipes, hie]
  · intro hw p hl
    simp [find_connected_pipes, hw, hl]
  · intro hw c hl
    simp [find_connected_pipes, hw, hl]
  · intro pt p
    simp [proximityPipes, List.mem_filter]
  · exact (dedupById_nodup _ _).1

/-- Counterexample for C8: a junction with unusable port data whose
location curve runs (0,0,0)-(8,0,0), in a model with one pipe crossing
that curve's midpoint (4,0,0) at distance 0.  Under the claim's
representative point — the midpoint of the location curve — the pipe is
within the 1.0-foot fallback tolerance and would be discovered, but the
source projects from the curve's start point `GetEndPoint(0)`, 4 feet
away, and discovery returns nothing. -/
theorem find_connected_midpoint_mismatch :
    portWalk jx wx = [] ∧
    jx.loc = JLoc.curveLoc ⟨⟨0, 0, 0⟩, ⟨8, 0, 0⟩⟩ ∧
    pipeX ∈ wx.pipes ∧
    distSq (projectPt pipeX.curve (specMidpoint ⟨⟨0, 0, 0⟩, ⟨8, 0, 0⟩⟩))
      (specMidpoint ⟨⟨0, 0, 0⟩, ⟨8, 0, 0⟩⟩) < 1 ∧
    find_connected_pipes jx wx = [] := by
  refine ⟨rfl, rfl, by simp [wx], ?_, ?_⟩
  · norm_num [projectPt, specMidpoint, midpointQ, distSq, dirVec, dot3, pipeX]
  · norm_num [find_connected_pipes, portWalk, jx, wx, proximityPipes, projectPt,
      dedupById, distSq, dirVec, dot3, midpointQ, pipeX]

/-- Witness for C8's amended theorem: the curve-location fallback equation
instantiated at the counterexample junction. -/
theorem find_connected_characterization_witness :
    find_connected_pipes jx wx = dedupById (proximityPipes wx ⟨0, 0, 0⟩) [] :=
  (find_connected_characterization jx wx).2.2.1 rfl ⟨⟨0, 0, 0⟩, ⟨8, 0, 0⟩⟩ rfl

/-- C9: when discovery finds exactly two segments but all three escalating
deletion methods fail, the orchestrator records the junction as a failure
(the error counter is incremented) and moves on without ever invoking the
reconnection strategy chain. -/
theorem undeletable_skips_reconnection (jc : JunctionCase) (p1 p2 : Pipe)
    (hdisc : find_connected_pipes jc.j jc.w = [p1, p2])
    (hd1 : jc.dops.del1 = false) (hd2 : jc.dops.del2 = false) (hd3 : jc.dops.del3 = false) :
    processOne jc = ⟨false, false, none⟩ ∧
    ∀ s e : ℕ, countStep (s, e) jc = (s, e + 1) := by
  have hp : processOne jc = ⟨false, false, none⟩ := by
    unfold processOne
    rw [hdisc]
    simp [hd1, hd2, hd3]
  exact ⟨hp, fun s e => by simp [countStep, hp]⟩

/-- Witness for C9: a junction attached to the two example pipes whose
every deletion method fails is recorded as a failure with no chain call. -/
theorem undeletable_skips_reconnection_witness :
    processOne jc9 = ⟨false, false, none⟩ :=
  (undeletable_skips_reconnection jc9 pA pB
    (by norm_num [find_connected_pipes, portWalk, j9, w9, jc9, pA, pB, dedupById,
      freeConn]) rfl rfl rfl).1

theorem countStep_fst_snd (jc : JunctionCase) (s e : ℕ) :
    (countStep (s, e) jc).1 + (countStep (s, e) jc).2 = s + e + 1 := by
  unfold countStep
  split_ifs <;> simp <;> omega

theorem processJunctions_aux (cases : List JunctionCase) (s e : ℕ) :
    (cases.foldl countStep (s, e)).1 + (cases.foldl countStep (s, e)).2 =
      s + e + cases.length := by
  induction cases generalizing s e with
  | nil => simp
  | cons a t ih =>
    rw [List.foldl_cons]
    have h1 := ih (countStep (s, e) a).1 (countStep (s, e) a).2
    have h2 := countStep_fst_snd a s e
    rw [Prod.mk.eta] at h1
    rw [h1, List.length_cons]
    omega

/-- C10: over a non-empty batch every junction increments exactly one of
the success and failure counters, so the reported succeeded-plus-failed
total equals the number of selected junctions; a junction counts as a
success exactly when discovery yields two segments, some deletion method
succeeds, and the strategy chain reports a non-FAILURE tag. -/
theorem batch_counts_partition (cases : List JunctionCase) (hne : cases ≠ []) :
    (processJunctions cases).1 + (processJunctions cases).2 = cases.length ∧
    ∀ jc : JunctionCase,
      ((processOne jc).success = true ↔
        ∃ p1 p2, find_connected_pipes jc.j jc.w = [p1, p2] ∧
          (jc.dops.del1 || jc.dops.del2 || jc.dops.del3) = true ∧
          connect_pipes_comprehensive p1 p2 jc.h ≠ Outcome.FAILURE) := by
  constructor
  · simpa using processJunctions_aux cases 0 0
  · intro jc
    constructor
    · intro hsucc
      unfold processOne at hsucc
      rcases hfc : find_connected_pipes jc.j jc.w with _ | ⟨p1, _ | ⟨p2, _ | ⟨q, t⟩⟩⟩ <;>
        rw [hfc] at hsucc
      · simp at hsucc
      · simp at hsucc
      · dsimp only at hsucc
        by_cases hdel : (jc.dops.del1 || jc.dops.del2 || jc.dops.del3) = true
        · rw [if_pos hdel] at hsucc
          by_cases hf : connect_pipes_comprehensive p1 p2 jc.h = Outcome.FAILURE
          · rw [if_pos hf] at hsucc
            simp at hsucc
          · exact ⟨p1, p2, rfl, hdel, hf⟩
        · rw [if_neg hdel] at hsucc
          simp at hsucc
      · simp at hsucc
    · rintro ⟨p1, p2, hfc, hdel, hnf⟩
      unfold processOne
      rw [hfc]
      simp [hdel, hnf]

/-- Witness for C10: a two-junction batch, one undeletable junction and one
merged junction, whose success and failure counts add up to two. -/
theorem batch_counts_partition_witness :
    (processJunctions [jc9, jc10]).1 + (processJunctions [jc9, jc10]).2 =
      [jc9, jc10].length :=
  (batch_counts_partition [jc9, jc10] (by simp)).1
